import Mathlib

/-!
Verification development for the xwlm monitor arrangement engine.

The Rust sources are shallowly embedded: `i32` is modelled as `Int`
(no claim exercises overflow), `f64` scale values as `ℚ` (the clamp
arithmetic uses only exact decimal constants), `usize` as `Nat`,
`HashMap<usize, (i32, i32)>` as a function `Nat → Option (Int × Int)`,
`Instant` as a millisecond timestamp `Nat` passed explicitly, and the
`&str` operations of the workspace parser as structural functions on
`List Char`.  File and channel I/O is kept outside the model: functions
that read a file take the read result as an argument, and functions
that send an action return the action to the caller.
-/

namespace Xwlm

/-! ## Data model (`wlx_monitors` types as used by `src/app.rs`) -/

structure Resolution where
  width : Int
  height : Int
deriving DecidableEq

structure Mode where
  resolution : Resolution
  refresh_rate : Int
  is_current : Bool
  preferred : Bool
deriving DecidableEq

inductive WlTransform where
  | Normal
  | Rotate90
  | Rotate180
  | Rotate270
  | Flipped
  | Flipped90
  | Flipped180
  | Flipped270
deriving DecidableEq

structure Position where
  x : Int
  y : Int
deriving DecidableEq

structure WlMonitor where
  name : String
  modes : List Mode
  resolution : Resolution
  position : Position
  scale : ℚ
  transform : WlTransform
  enabled : Bool
deriving DecidableEq

/-- `TRANSFORMS` constant from `app.rs`. -/
def TRANSFORMS : List WlTransform :=
  [WlTransform.Normal, WlTransform.Rotate90, WlTransform.Rotate180,
   WlTransform.Rotate270, WlTransform.Flipped, WlTransform.Flipped90,
   WlTransform.Flipped180, WlTransform.Flipped270]

/-- `monitor_resolution` from `app.rs`: current mode, else preferred,
else first mode, else the monitor's own resolution field. -/
def monitor_resolution (m : WlMonitor) : Int × Int :=
  match m.modes.find? (fun md => md.is_current) with
  | some md => (md.resolution.width, md.resolution.height)
  | none =>
    match m.modes.find? (fun md => md.preferred) with
    | some md => (md.resolution.width, md.resolution.height)
    | none =>
      match m.modes.head? with
      | some md => (md.resolution.width, md.resolution.height)
      | none => (m.resolution.width, m.resolution.height)

/-- `effective_dimensions` from `app.rs`: width/height swapped for the
90-degree and 270-degree transforms. -/
def effective_dimensions (m : WlMonitor) : Int × Int :=
  let wh := monitor_resolution m
  match m.transform with
  | WlTransform.Rotate90 => (wh.2, wh.1)
  | WlTransform.Rotate270 => (wh.2, wh.1)
  | WlTransform.Flipped90 => (wh.2, wh.1)
  | WlTransform.Flipped270 => (wh.2, wh.1)
  | _ => wh

/-! ## Config serializer (`crates/xwlm-cfg/src/format.rs`) -/

/-- `current_mode` from `format.rs`. -/
def current_mode (m : WlMonitor) : Int × Int × Int :=
  match m.modes.find? (fun md => md.is_current) with
  | some md => (md.resolution.width, md.resolution.height, md.refresh_rate)
  | none => (0, 0, 60)

/-- Truncation toward zero, the semantics of Rust's `as i32` cast on a
non-NaN in-range float, on the rational model. -/
def rat_trunc (q : ℚ) : Int :=
  Int.tdiv q.num (q.den : Int)

/-- Two-decimal rendering used for Rust's `{:.2}` float format in the
rational model (rounded to the nearest hundredth). -/
def format_two_decimals (q : ℚ) : String :=
  let n : Int := round (q * 100)
  let sign := if n < 0 then "-" else ""
  let m := n.natAbs
  let ip := m / 100
  let fp := m % 100
  sign ++ toString ip ++ "." ++ (if fp < 10 then "0" else "") ++ toString fp

/-- `format_scale` from `format.rs`: an integer when within 0.001 of a
whole number, else two decimal places. -/
def format_scale (scale : ℚ) : String :=
  if |scale - (round scale : ℚ)| < 1/1000 then
    toString (rat_trunc scale)
  else
    format_two_decimals scale

/-- `transform_to_hyprland` from `format.rs`. -/
def transform_to_hyprland (t : WlTransform) : Nat :=
  match t with
  | WlTransform.Normal => 0
  | WlTransform.Rotate90 => 1
  | WlTransform.Rotate180 => 2
  | WlTransform.Rotate270 => 3
  | WlTransform.Flipped => 4
  | WlTransform.Flipped90 => 5
  | WlTransform.Flipped180 => 6
  | WlTransform.Flipped270 => 7

/-- One monitor's lines in `format_hyprland` from `format.rs`.
Note the Rust format string joins the position fields with the letter
x, not a comma: the position renders as 0x0, not 0,0. -/
def hyprland_monitor_lines (m : WlMonitor) : List String :=
  let whr := current_mode m
  let scale := format_scale m.scale
  let base := "monitor = " ++ m.name ++ ", " ++ toString whr.1 ++ "x"
    ++ toString whr.2.1 ++ "@" ++ toString whr.2.2 ++ ", "
    ++ toString m.position.x ++ "x" ++ toString m.position.y ++ ", " ++ scale
  let first :=
    if m.transform ≠ WlTransform.Normal then
      base ++ ", transform, " ++ toString (transform_to_hyprland m.transform)
    else
      base
  if m.enabled then [first] else [first, "monitor = " ++ m.name ++ ", disable"]

/-- `format_hyprland` from `format.rs`. -/
def format_hyprland (monitors : List WlMonitor)
    (workspaces : List (Nat × Option String)) : String :=
  let lines := monitors.flatMap hyprland_monitor_lines
  let ws_lines := workspaces.filterMap (fun iw =>
    iw.2.map (fun n => "workspace = " ++ toString iw.1 ++ ", monitor:" ++ n))
  let lines := if ws_lines ≠ [] then lines ++ [""] ++ ws_lines else lines
  let lines := lines ++ [""]
  String.intercalate "\n" lines

/-! ## Workspace config parser (`crates/xwlm-cfg/src/workspace.rs`)

The `&str` primitives used by `parse_hyprland_workspaces` (`trim`,
`trim_start`, `strip_` `prefix`, `split_once`, `str::parse::<usize>`,
`str::lines`) are embedded structurally on `List Char`. -/

/-- ASCII whitespace as recognised by the inputs in play (Rust `trim`
accepts all Unicode whitespace; the configs in question are ASCII). -/
def is_ws (c : Char) : Bool :=
  c = ' ' || c = '\t' || c = '\n' || c = '\r'

/-- Rust `str::trim` on a character list. -/
def trim_chars (l : List Char) : List Char :=
  ((l.dropWhile is_ws).reverse.dropWhile is_ws).reverse

/-- Rust `str::trim_start` on a character list. -/
def trim_start_chars (l : List Char) : List Char :=
  l.dropWhile is_ws

/-- Rust `str::strip_` `prefix` on character lists: `some` of the
remainder when `p` is a prefix of `l`, else `none`. -/
def strip_pfx : List Char → List Char → Option (List Char)
  | [], l => some l
  | _ :: _, [] => none
  | p :: ps, c :: cs => if p = c then strip_pfx ps cs else none

/-- Rust `str::split_once` at a single character: splits at the first
occurrence, `none` when the character is absent. -/
def split_once_char (sep : Char) : List Char → Option (List Char × List Char)
  | [] => none
  | c :: cs =>
    if c = sep then some ([], cs)
    else (split_once_char sep cs).map (fun ab => (c :: ab.1, ab.2))

/-- Digit-string to `Nat`, `none` for an empty or non-digit string. -/
def digits_to_nat (l : List Char) : Option Nat :=
  if l ≠ [] ∧ l.all Char.isDigit then
    some (l.foldl (fun n c => n * 10 + (c.toNat - 48)) 0)
  else none

/-- Rust `str::parse::<usize>`: optional leading plus sign, then
decimal digits (the model ignores overflow, which only rejects inputs
no claim exercises). -/
def parse_usize (l : List Char) : Option Nat :=
  match l with
  | '+' :: rest => digits_to_nat rest
  | _ => digits_to_nat l

/-- Split a character list at newline characters (keeping empty
segments, one more segment than separators). -/
def split_on_nl : List Char → List (List Char)
  | [] => [[]]
  | c :: cs =>
    if c = '\n' then [] :: split_on_nl cs
    else
      match split_on_nl cs with
      | [] => [[c]]
      | l :: ls => (c :: l) :: ls

/-- Drop one trailing carriage return, as Rust `str::lines` does on
each produced line. -/
def strip_cr (l : List Char) : List Char :=
  match l.getLast? with
  | some '\r' => l.dropLast
  | _ => l

/-- Rust `str::lines`: split at newlines, drop the final empty segment
produced by a trailing newline (or by emptiness), strip one trailing
carriage return per line. -/
def rust_lines (l : List Char) : List (List Char) :=
  let parts := split_on_nl l
  let parts := if parts.getLast? = some [] then parts.dropLast else parts
  parts.map strip_cr

/-- The per-line closure of `parse_hyprland_workspaces` from
`workspace.rs`: strip `workspace`, optional space, `=`, optional
space, split at the first comma, parse the id, require a `monitor:`
tag on the remainder. -/
def parse_hyprland_line (line : List Char) : Option (Nat × String) := do
  let rest ← strip_pfx "workspace".data (trim_chars line)
  let rest := trim_start_chars rest
  let rest ← strip_pfx "=".data rest
  let rest := trim_start_chars rest
  let idrest ← split_once_char ',' rest
  let id ← parse_usize (trim_chars idrest.1)
  let monitor ← strip_pfx "monitor:".data (trim_chars idrest.2)
  pure (id, String.mk (trim_chars monitor))

/-- `parse_hyprland_workspaces` from `workspace.rs`: tolerant
line-oriented extraction, non-matching lines skipped. -/
def parse_hyprland_workspaces (content : String) : List (Nat × String) :=
  (rust_lines content.data).filterMap parse_hyprland_line

/-! ## Application state (`src/app.rs`) -/

inductive PositionDirection where
  | Left
  | Right
  | Up
  | Down
deriving DecidableEq

structure WorkspaceAssignment where
  id : Nat
  monitor_idx : Option Nat
deriving DecidableEq

/-- `App` from `app.rs`, restricted to the fields the arrangement
engine reads or writes.  `ListState` cursors are modelled by their
selected index; the action channel is modelled by returning emitted
actions; `Instant` fields are millisecond counts. -/
structure App where
  monitors : List WlMonitor
  selected_monitor : Nat
  mode_selected : Option Nat
  transform_selected : Option Nat
  pending_scale : ℚ
  pending_positions : Nat → Option (Int × Int)
  pending_toggle_warning : Bool
  workspace_assignments : List WorkspaceAssignment
  workspace_selected : Option Nat
  initial_workspace_names : Option (List (Nat × String))
  needs_save : Bool
  last_move_time : Nat
  last_move_direction : Option PositionDirection
  move_repeat_count : Nat

/-- `REPEAT_WINDOW_MS` from `app.rs`. -/
def REPEAT_WINDOW_MS : Nat := 200

/-- HashMap insert on the functional map model. -/
def pinsert (f : Nat → Option (Int × Int)) (k : Nat) (v : Int × Int) :
    Nat → Option (Int × Int) :=
  fun k' => if k' = k then some v else f k'

/-- `validate_workspace_assignments` from `app.rs`: clear any
assignment whose index is at or past the monitor count. -/
def validate_workspace_assignments (a : App) : App :=
  { a with workspace_assignments := a.workspace_assignments.map (fun ws =>
      match ws.monitor_idx with
      | some idx =>
        if idx ≥ a.monitors.length then { ws with monitor_idx := none } else ws
      | none => ws) }

/-- `sync_panel_state` from `app.rs`: re-sync pending scale, transform
cursor and mode cursor to the selected monitor's actual values. -/
def sync_panel_state (a : App) : App :=
  match a.monitors.get? a.selected_monitor with
  | none => a
  | some m =>
    let a := { a with pending_scale := m.scale }
    let a :=
      match TRANSFORMS.findIdx? (fun t => t = m.transform) with
      | some tidx => { a with transform_selected := some tidx }
      | none => a
    match m.modes.findIdx? (fun md => md.is_current) with
    | some mode_idx => { a with mode_selected := some mode_idx }
    | none => { a with mode_selected := some 0 }

/-- Update the first element satisfying the predicate, as Rust
`iter_mut().find()` followed by an assignment does. -/
def set_first {α : Type} (p : α → Bool) (g : α → α) : List α → List α
  | [] => []
  | x :: xs => if p x then g x :: xs else x :: set_first p g xs

/-- `resolve_initial_workspaces` from `app.rs`: consume the parsed
initial workspace names, pointing each named workspace at the index of
the monitor with that name (or clearing it when absent). -/
def resolve_initial_workspaces (a : App) : App :=
  match a.initial_workspace_names with
  | none => a
  | some names =>
    let assignments := names.foldl (fun wss idname =>
      let monitor_idx := a.monitors.findIdx? (fun m => m.name = idname.2)
      set_first (fun ws => ws.id = idname.1)
        (fun ws => { ws with monitor_idx := monitor_idx }) wss)
      a.workspace_assignments
    { a with workspace_assignments := assignments,
             initial_workspace_names := none }

/-- `set_monitors` from `app.rs`: install the initial snapshot, reset
the selection, resolve saved workspace names, validate assignments. -/
def set_monitors (a : App) (monitors : List WlMonitor) : App :=
  let a := { a with monitors := monitors }
  let a :=
    if a.monitors ≠ [] then
      sync_panel_state { a with selected_monitor := 0, mode_selected := some 0 }
    else a
  validate_workspace_assignments (resolve_initial_workspaces a)

/-- `update_monitor` from `app.rs`: replace in place by name, append
when unknown, then re-sync and validate. -/
def update_monitor (a : App) (monitor : WlMonitor) : App :=
  let monitors :=
    if a.monitors.any (fun m => m.name = monitor.name) then
      set_first (fun m => m.name = monitor.name) (fun _ => monitor) a.monitors
    else a.monitors ++ [monitor]
  validate_workspace_assignments (sync_panel_state { a with monitors := monitors })

/-- `remove_monitor` from `app.rs`: retain monitors whose name differs
or which are disabled (so a monitor with the given name is dropped
precisely when it is enabled), clamp the selection, re-sync, validate. -/
def remove_monitor (a : App) (name : String) : App :=
  let monitors := a.monitors.filter (fun m => m.name ≠ name || !m.enabled)
  let a := { a with monitors := monitors }
  let a :=
    if a.selected_monitor ≥ a.monitors.length then
      { a with selected_monitor := a.monitors.length - 1 }
    else a
  validate_workspace_assignments (sync_panel_state a)

/-- `enabled_count` from `app.rs`. -/
def enabled_count (a : App) : Nat :=
  (a.monitors.filter (fun m => m.enabled)).length

/-- `scale_up` from `app.rs`: add 0.01, clamp above by 10.0. -/
def scale_up (a : App) : App :=
  { a with pending_scale := min (a.pending_scale + 1/100) 10 }

/-- `scale_down` from `app.rs`: subtract 0.01, clamp below by 0.5. -/
def scale_down (a : App) : App :=
  { a with pending_scale := max (a.pending_scale - 1/100) (1/2) }

/-- `display_position` from `app.rs`: the pending override when
present, else the monitor's own position, else the origin. -/
def display_position (a : App) (idx : Nat) : Int × Int :=
  match a.pending_positions idx with
  | some p => p
  | none =>
    match a.monitors.get? idx with
    | some m => (m.position.x, m.position.y)
    | none => (0, 0)

/-! ### Directional movement (`App::move_monitor`) -/

/-- The `same_direction` test in `move_monitor`: Rust compares
discriminants, which for this payload-free enum is plain equality. -/
def same_direction (last : Option PositionDirection)
    (d : PositionDirection) : Bool :=
  match last with
  | some l => l = d
  | none => false

/-- The repeat-counter update at the top of `move_monitor`: increment
when the same direction recurs within the repeat window, else reset.
`Instant::duration_since` saturates at zero, as `Nat` subtraction does. -/
def move_repeat_after (a : App) (d : PositionDirection) (now : Nat) : Nat :=
  if now - a.last_move_time < REPEAT_WINDOW_MS
      && same_direction a.last_move_direction d then
    a.move_repeat_count + 1
  else 0

/-- The step computed in `move_monitor`: `1 + repeat_count * 2`. -/
def move_step (a : App) (d : PositionDirection) (now : Nat) : Int :=
  1 + (move_repeat_after a d now : Int) * 2

/-- The clamped candidate position computed in `move_monitor`: the
displayed position plus the signed step, clamped non-negative. -/
def move_candidate (a : App) (d : PositionDirection) (now : Nat) : Int × Int :=
  let step := move_step a d now
  let cur := display_position a a.selected_monitor
  let nxy :=
    match d with
    | PositionDirection.Left => (cur.1 - step, cur.2)
    | PositionDirection.Right => (cur.1 + step, cur.2)
    | PositionDirection.Up => (cur.1, cur.2 - step)
    | PositionDirection.Down => (cur.1, cur.2 + step)
  (max nxy.1 0, max nxy.2 0)

/-- The collision scan in `move_monitor`: the first other enabled
monitor whose displayed box overlaps the candidate box. -/
def move_collision (a : App) (d : PositionDirection) (now : Nat) :
    Option (Nat × WlMonitor) :=
  match a.monitors.get? a.selected_monitor with
  | none => none
  | some selm =>
    let sel_wh := effective_dimensions selm
    let nxy := move_candidate a d now
    a.monitors.enum.find? (fun im =>
      if im.1 = a.selected_monitor || !im.2.enabled then false
      else
        let mxy := display_position a im.1
        let mwh := effective_dimensions im.2
        decide (nxy.1 < mxy.1 + mwh.1 ∧ nxy.1 + sel_wh.1 > mxy.1
          ∧ nxy.2 < mxy.2 + mwh.2 ∧ nxy.2 + sel_wh.2 > mxy.2))

/-- `move_monitor` from `app.rs`: bookkeeping, step, clamped
candidate, collision scan, then either the edge swap (both positions
pending) or the plain move (one position pending). -/
def move_monitor (a : App) (d : PositionDirection) (now : Nat) : App :=
  match a.monitors.get? a.selected_monitor with
  | none => a
  | some selm =>
    if !selm.enabled then a
    else
      let rc := move_repeat_after a d now
      let a' := { a with move_repeat_count := rc, last_move_time := now,
                         last_move_direction := some d }
      let cur := display_position a a.selected_monitor
      let sel_wh := effective_dimensions selm
      let nxy := move_candidate a d now
      match move_collision a d now with
      | some jm =>
        let oxy := display_position a jm.1
        let owh := effective_dimensions jm.2
        let swap :=
          match d with
          | PositionDirection.Left =>
            ((oxy.1, oxy.2), (oxy.1 + sel_wh.1, oxy.2))
          | PositionDirection.Right =>
            ((cur.1 + owh.1, cur.2), (cur.1, cur.2))
          | PositionDirection.Up =>
            ((oxy.1, oxy.2), (oxy.1, oxy.2 + sel_wh.2))
          | PositionDirection.Down =>
            ((cur.1, cur.2 + owh.2), (cur.1, cur.2))
        let nps := (max swap.1.1 0, max swap.1.2 0)
        let npo := (max swap.2.1 0, max swap.2.2 0)
        let pp := pinsert (pinsert a.pending_positions a.selected_monitor nps) jm.1 npo
        { a' with pending_positions := pp }
      | none =>
        let pp := pinsert a.pending_positions a.selected_monitor nxy
        { a' with pending_positions := pp }

/-! ### Workspace assignment cycling (`App::cycle_workspace_monitor`) -/

/-- The ordered list of enabled monitor indices built inside
`cycle_workspace_monitor`. -/
def enabled_indices (monitors : List WlMonitor) : List Nat :=
  ((monitors.enum.filter (fun im => im.2.enabled)).map (fun im => im.1))

/-- The assignment update of `cycle_workspace_monitor`, on a given
enabled-index list (the caller guarantees it is non-empty; on an empty
list the indexing the Rust performs cannot be reached). -/
def cycle_ws (enabled : List Nat) (forward : Bool) :
    Option Nat → Option Nat
  | none => if forward then enabled.head? else enabled.getLast?
  | some idx =>
    match enabled.findIdx? (fun i => i = idx) with
    | some p =>
      if forward then
        if p + 1 ≥ enabled.length then none else enabled.get? (p + 1)
      else
        if p = 0 then none else enabled.get? (p - 1)
    | none => none

/-- `cycle_workspace_monitor` from `app.rs` (the in-memory part; the
immediate `save_config` call it makes is file I/O outside the model,
its `needs_save` effect is recorded). -/
def cycle_workspace_monitor (a : App) (forward : Bool) : App :=
  match a.workspace_selected with
  | none => a
  | some ws_idx =>
    match a.workspace_assignments.get? ws_idx with
    | none => a
    | some ws =>
      let enabled := enabled_indices a.monitors
      if enabled.isEmpty then a
      else
        { a with
          workspace_assignments := a.workspace_assignments.set ws_idx
            { ws with monitor_idx := cycle_ws enabled forward ws.monitor_idx },
          needs_save := true }

/-! ### Enable/disable toggling (`App::toggle_monitor`) -/

/-- The `WlMonitorAction::Toggle` payload emitted by `perform_toggle`
(the mode field is always `None` there and is omitted). -/
structure ToggleAction where
  name : String
  position : Option (Int × Int)
deriving DecidableEq

/-- `position_overlaps` from `app.rs`: does the box overlap any other
enabled monitor at its actual (not displayed) position. -/
def position_overlaps (a : App) (exclude_name : String)
    (pos size : Int × Int) : Bool :=
  a.monitors.any (fun m =>
    if m.name = exclude_name || !m.enabled then false
    else
      let mwh := effective_dimensions m
      decide (pos.1 < m.position.x + mwh.1 ∧ pos.1 + size.1 > m.position.x
        ∧ pos.2 < m.position.y + mwh.2 ∧ pos.2 + size.2 > m.position.y))

/-- Rust `Iterator::min_by_key` on Manhattan distance: the first
element attaining the minimum. -/
def first_min_by (l : List (Int × Int)) (key : Int × Int → Int) :
    Option (Int × Int) :=
  l.foldl (fun best p =>
    match best with
    | none => some p
    | some b => if key p < key b then some p else some b) none

/-- `calculate_closest_non_overlapping_position` from `app.rs`: four
flush-edge probe candidates, filtered to the non-overlapping ones,
closest (Manhattan) to the preferred position, falling back to
flush-right. -/
def calculate_closest_non_overlapping_position (a : App)
    (exclude_name : String) (preferred_pos size : Int × Int) : Int × Int :=
  let enabled := a.monitors.filter (fun m => m.enabled && m.name ≠ exclude_name)
  if enabled.isEmpty then preferred_pos
  else
    let min_left := ((enabled.map (fun m => m.position.x)).min?).getD 0
    let max_right :=
      ((enabled.map (fun m => m.position.x + (effective_dimensions m).1)).max?).getD 0
    let min_top := ((enabled.map (fun m => m.position.y)).min?).getD 0
    let max_bottom :=
      ((enabled.map (fun m => m.position.y + (effective_dimensions m).2)).max?).getD 0
    let candidates := [(min_left - size.1, (0 : Int)), (max_right, 0),
      ((0 : Int), min_top - size.2), (0, max_bottom)]
    let viable := candidates.filter
      (fun p => !position_overlaps a exclude_name p size)
    let key := fun (p : Int × Int) =>
      |p.1 - preferred_pos.1| + |p.2 - preferred_pos.2|
    (first_min_by viable key).getD (max_right, 0)

/-- `calculate_non_overlapping_position` from `app.rs`: flush-right of
the rightmost enabled monitor at y = 0, or the origin with none. -/
def calculate_non_overlapping_position (a : App)
    (exclude_name : String) : Int × Int :=
  let enabled := a.monitors.filter (fun m => m.enabled && m.name ≠ exclude_name)
  if enabled.isEmpty then (0, 0)
  else
    let max_right :=
      ((enabled.map (fun m => m.position.x + (effective_dimensions m).1)).max?).getD 0
    (max_right, 0)

/-- `perform_toggle` from `app.rs`.  The saved position the Rust reads
from the config file (`get_saved_monitor_position`, file I/O) enters
as the `saved_pos` argument; the sent action is returned. -/
def perform_toggle (a : App) (saved_pos : Option (Int × Int))
    (monitor_name : String) (currently_enabled : Bool) : App × ToggleAction :=
  let will_enable := !currently_enabled
  let position :=
    if will_enable then
      let wh := ((a.monitors.find? (fun m => m.name = monitor_name)).map
        effective_dimensions).getD (1920, 1080)
      match saved_pos with
      | some pos =>
        if position_overlaps a monitor_name pos wh then
          some (calculate_closest_non_overlapping_position a monitor_name pos wh)
        else some pos
      | none => some (calculate_non_overlapping_position a monitor_name)
    else none
  ({ a with needs_save := true },
   { name := monitor_name, position := position })

/-- `toggle_monitor` from `app.rs`: with the warning flag set, clear
it and toggle; otherwise arm the warning instead of disabling the last
enabled monitor, and toggle immediately in every other case. -/
def toggle_monitor (a : App) (saved_pos : Option (Int × Int)) :
    App × Option ToggleAction :=
  if a.pending_toggle_warning then
    let a := { a with pending_toggle_warning := false }
    match a.monitors.get? a.selected_monitor with
    | none => (a, none)
    | some m =>
      let r := perform_toggle a saved_pos m.name m.enabled
      (r.1, some r.2)
  else
    match a.monitors.get? a.selected_monitor with
    | none => (a, none)
    | some m =>
      if m.enabled && enabled_count a = 1 then
        ({ a with pending_toggle_warning := true }, none)
      else
        let r := perform_toggle a saved_pos m.name m.enabled
        (r.1, some r.2)

/-! ## Concrete fixtures used by witnesses and counterexamples -/

/-- A 1920x1080 at 60 Hz current mode. -/
def mode1080 : Mode :=
  { resolution := { width := 1920, height := 1080 },
    refresh_rate := 60, is_current := true, preferred := false }

/-- The claim C2 monitor: name A, 1920x1080@60 current, origin,
scale 1, normal transform, enabled. -/
def monA : WlMonitor :=
  { name := "A", modes := [mode1080],
    resolution := { width := 1920, height := 1080 },
    position := { x := 0, y := 0 }, scale := 1,
    transform := WlTransform.Normal, enabled := true }

/-- The same monitor disabled. -/
def monA_disabled : WlMonitor := { monA with enabled := false }

/-- A freshly constructed `App` (the fields `App::new` sets, with no
monitors yet and no parsed initial workspace names). -/
def base_app : App :=
  { monitors := [], selected_monitor := 0, mode_selected := none,
    transform_selected := some 0, pending_scale := 1,
    pending_positions := fun _ => none, pending_toggle_warning := false,
    workspace_assignments := [], workspace_selected := some 0,
    initial_workspace_names := none, needs_save := false,
    last_move_time := 0, last_move_direction := none, move_repeat_count := 0 }

/-- A 100x100 at 60 Hz current mode. -/
def mode_100x100 : Mode :=
  { resolution := { width := 100, height := 100 },
    refresh_rate := 60, is_current := true, preferred := false }

/-- A 50x100 at 60 Hz current mode. -/
def mode_50x100 : Mode :=
  { resolution := { width := 50, height := 100 },
    refresh_rate := 60, is_current := true, preferred := false }

/-- Enabled monitor B, 50x100 at the origin. -/
def monB : WlMonitor :=
  { name := "B", modes := [mode_50x100],
    resolution := { width := 50, height := 100 },
    position := { x := 0, y := 0 }, scale := 1,
    transform := WlTransform.Normal, enabled := true }

/-- Enabled monitor C, 100x100 at (50, 0), one unit right of flush
against B. -/
def monC : WlMonitor :=
  { name := "C", modes := [mode_100x100],
    resolution := { width := 100, height := 100 },
    position := { x := 50, y := 0 }, scale := 1,
    transform := WlTransform.Normal, enabled := true }

/-- Enabled monitor D, 100x100 at (100, 0), isolated. -/
def monD : WlMonitor :=
  { name := "D", modes := [mode_100x100],
    resolution := { width := 100, height := 100 },
    position := { x := 100, y := 0 }, scale := 1,
    transform := WlTransform.Normal, enabled := true }

/-! ## Helper lemmas -/

/-- Workspace-reference validity: every assignment is unassigned or
points strictly below the monitor count. -/
def wsValid (a : App) : Prop :=
  ∀ ws ∈ a.workspace_assignments, ∀ idx,
    ws.monitor_idx = some idx → idx < a.monitors.length

theorem sync_panel_state_monitors (a : App) :
    (sync_panel_state a).monitors = a.monitors := by
  unfold sync_panel_state
  repeat' split
  all_goals rfl

theorem sync_panel_state_assignments (a : App) :
    (sync_panel_state a).workspace_assignments = a.workspace_assignments := by
  unfold sync_panel_state
  repeat' split
  all_goals rfl

theorem validate_monitors (a : App) :
    (validate_workspace_assignments a).monitors = a.monitors := rfl

theorem wsValid_validate (a : App) :
    wsValid (validate_workspace_assignments a) := by
  intro ws hws idx hidx
  simp only [validate_workspace_assignments] at hws
  rcases List.mem_map.mp hws with ⟨ws0, _, heq⟩
  subst heq
  rcases h0 : ws0.monitor_idx with _ | i
  · simp only [h0] at hidx
    exact Option.noConfusion hidx
  · simp only [h0] at hidx
    by_cases hge : i ≥ a.monitors.length
    · rw [if_pos hge] at hidx
      exact Option.noConfusion hidx
    · rw [if_neg hge] at hidx
      rw [h0] at hidx
      cases hidx
      exact lt_of_not_ge hge

theorem remove_monitor_monitors (a : App) (name : String) :
    (remove_monitor a name).monitors =
      a.monitors.filter (fun m => m.name ≠ name || !m.enabled) := by
  unfold remove_monitor
  rw [validate_monitors, sync_panel_state_monitors]
  split
  all_goals rfl

/-! ## Claim C1 — monitor removal -/

/-- C1 counterexample: the claim says removing a still-enabled monitor
is a no-op and removing a disabled one deletes it.  On the code it is
the reverse: with one enabled monitor named A, a removal notification
for A empties the monitor list, and with a disabled monitor named A
the removal notification retains it. -/
theorem C1_counterexample :
    ({ base_app with monitors := [monA] } : App).monitors = [monA]
  ∧ (remove_monitor { base_app with monitors := [monA] } "A").monitors = []
  ∧ (remove_monitor { base_app with monitors := [monA_disabled] } "A").monitors
      = [monA_disabled] := by
  refine ⟨rfl, by decide, by decide⟩

/-- C1 (amended): a removal notification deletes exactly the monitors
with the given name that are currently enabled; a monitor whose name
differs, or which is disabled, survives; and afterwards every
workspace assignment is unassigned or points below the monitor count. -/
theorem C1_removal_semantics (a : App) (name : String) :
    (∀ m ∈ (remove_monitor a name).monitors, m.name = name → m.enabled = false)
  ∧ (∀ m ∈ a.monitors, (m.name ≠ name ∨ m.enabled = false) →
      m ∈ (remove_monitor a name).monitors)
  ∧ wsValid (remove_monitor a name) := by
  refine ⟨?_, ?_, wsValid_validate _⟩
  · intro m hm hname
    rw [remove_monitor_monitors] at hm
    have hp := List.of_mem_filter hm
    simp only [hname, ne_eq, not_true_eq_false, decide_False, Bool.false_or,
      Bool.not_eq_true'] at hp
    exact hp
  · intro m hm hcond
    rw [remove_monitor_monitors]
    refine List.mem_filter.mpr ⟨hm, ?_⟩
    rcases hcond with h | h
    · simp [h]
    · simp [h]

/-- C1 witness: a disabled monitor named A survives the removal
notification for A (second clause of the amended theorem at a concrete
state). -/
theorem C1_witness :
    monA_disabled ∈
      (remove_monitor { base_app with monitors := [monA_disabled] } "A").monitors :=
  (C1_removal_semantics { base_app with monitors := [monA_disabled] } "A").2.1
    monA_disabled (by decide) (Or.inr (by decide))

/-! ## Claim C2 — Hyprland serialization of a single enabled monitor -/

theorem format_scale_one : format_scale 1 = "1" := by
  rw [format_scale, if_pos]
  · decide
  · rw [round_one]
    norm_num

/-- C2 counterexample: the claim says the position renders as 0,0; the
code's format string renders it as 0x0, so the claimed line is not
produced (neither as the whole output nor among its lines). -/
theorem C2_counterexample :
    format_hyprland [monA] [] ≠ "monitor = A, 1920x1080@60, 0,0, 1"
  ∧ format_hyprland [monA] [] ≠ "monitor = A, 1920x1080@60, 0,0, 1\n"
  ∧ "monitor = A, 1920x1080@60, 0,0, 1".data ∉
      (rust_lines (format_hyprland [monA] []).data).map id := by
  have step : format_hyprland [monA] [] =
      String.intercalate "\n"
        ["monitor = A, 1920x1080@60, 0x0, " ++ format_scale 1, ""] := rfl
  rw [step, format_scale_one]
  refine ⟨by decide, by decide, by decide⟩

/-- C2 (amended): serializing the single enabled monitor A
(1920x1080@60 current mode, origin, scale 1, normal transform) to the
Hyprland target yields exactly the line
monitor = A, 1920x1080@60, 0x0, 1 — position as 0x0, no transform
clause, integer scale — followed by the final newline. -/
theorem C2_hyprland_single_line :
    format_hyprland [monA] [] = "monitor = A, 1920x1080@60, 0x0, 1\n" := by
  have step : format_hyprland [monA] [] =
      String.intercalate "\n"
        ["monitor = A, 1920x1080@60, 0x0, " ++ format_scale 1, ""] := rfl
  rw [step, format_scale_one]
  decide

/-! ## Claim C7 — scale clamping -/

inductive ScaleOp where
  | up
  | down

/-- A finite sequence of `scale_up` / `scale_down` calls. -/
def apply_scale_ops (a : App) : List ScaleOp → App
  | [] => a
  | op :: ops =>
    match op with
    | ScaleOp.up => apply_scale_ops (scale_up a) ops
    | ScaleOp.down => apply_scale_ops (scale_down a) ops

/-- C7: starting from a pending scale in the interval from 0.5 to 10,
every finite sequence of scale_up and scale_down calls (increment
0.01) leaves the pending scale inside that interval. -/
theorem C7_scale_clamped (a : App) (ops : List ScaleOp)
    (h : 1/2 ≤ a.pending_scale ∧ a.pending_scale ≤ 10) :
    1/2 ≤ (apply_scale_ops a ops).pending_scale
  ∧ (apply_scale_ops a ops).pending_scale ≤ 10 := by
  induction ops generalizing a with
  | nil => exact h
  | cons op ops ih =>
    cases op
    · show 1/2 ≤ (apply_scale_ops (scale_up a) ops).pending_scale ∧ _
      apply ih
      simp only [scale_up]
      constructor
      · refine le_min ?_ (by norm_num)
        linarith [h.1]
      · exact min_le_right _ _
    · show 1/2 ≤ (apply_scale_ops (scale_down a) ops).pending_scale ∧ _
      apply ih
      simp only [scale_down]
      constructor
      · exact le_max_right _ _
      · refine max_le ?_ (by norm_num)
        linarith [h.2]

/-- C7 witness: the fresh app state has pending scale 1, inside the
interval, and one up step followed by one down step stays inside. -/
theorem C7_witness :
    ((1:ℚ)/2 ≤ base_app.pending_scale ∧ base_app.pending_scale ≤ 10)
  ∧ (1/2 ≤ (apply_scale_ops base_app [ScaleOp.up, ScaleOp.down]).pending_scale
     ∧ (apply_scale_ops base_app [ScaleOp.up, ScaleOp.down]).pending_scale ≤ 10) := by
  have h : (1:ℚ)/2 ≤ base_app.pending_scale ∧ base_app.pending_scale ≤ 10 := by
    constructor <;> norm_num [base_app]
  exact ⟨h, C7_scale_clamped base_app [ScaleOp.up, ScaleOp.down] h⟩

/-! ## Claim C8 — workspace references stay valid across mutations -/

/-- C8: after the initial snapshot (`set_monitors`), a change
notification (`update_monitor`) or a removal notification
(`remove_monitor`), every workspace assignment is unassigned or a
valid index strictly below the monitor count. -/
theorem C8_assignments_valid (a : App) (ms : List WlMonitor)
    (m : WlMonitor) (name : String) :
    wsValid (set_monitors a ms) ∧ wsValid (update_monitor a m)
  ∧ wsValid (remove_monitor a name) :=
  ⟨wsValid_validate _, wsValid_validate _, wsValid_validate _⟩

/-- C8 witness: the invariant holds at a concrete snapshot
installation. -/
theorem C8_witness : wsValid (set_monitors base_app [monA]) :=
  (C8_assignments_valid base_app [monA] monA "A").1

/-! ## Claim C9 — Hyprland workspace parsing -/

/-- C9: `workspace = 3, monitor:DP-1` parses to the pair (3, DP-1); a
line missing the `monitor:` token yields no pair; and any content all
of whose lines fail the line parser yields the empty list (lines that
do not match are silently skipped — the parser is a total function and
cannot fail). -/
theorem C9_workspace_parsing :
    parse_hyprland_workspaces "workspace = 3, monitor:DP-1" = [(3, "DP-1")]
  ∧ parse_hyprland_workspaces "workspace = 3, DP-1" = []
  ∧ ∀ content : String,
      (∀ l ∈ rust_lines content.data, parse_hyprland_line l = none) →
      parse_hyprland_workspaces content = [] := by
  refine ⟨by decide, by decide, ?_⟩
  intro content h
  unfold parse_hyprland_workspaces
  exact List.filterMap_eq_nil_iff.mpr h

/-- C9 witness: a config whose lines are a comment and a stray word
parses to the empty list via the skipping clause. -/
theorem C9_witness :
    (∀ l ∈ rust_lines "# a comment\nnot a workspace line".data,
      parse_hyprland_line l = none)
  ∧ parse_hyprland_workspaces "# a comment\nnot a workspace line" = [] :=
  ⟨by decide, C9_workspace_parsing.2.2 _ (by decide)⟩

/-! ## Claim C5 — workspace cycling -/

theorem enabled_indices_nodup (ms : List WlMonitor) :
    (enabled_indices ms).Nodup := by
  have h1 : (ms.enum.filter (fun im => im.2.enabled)).Sublist ms.enum :=
    List.filter_sublist _
  have h2 : (enabled_indices ms).Sublist (ms.enum.map Prod.fst) := by
    unfold enabled_indices
    exact h1.map _
  exact (List.nodup_enum_map_fst ms).sublist h2

theorem findIdx_self_of_nodup (l : List Nat) (hnd : l.Nodup) :
    ∀ (i : Nat) (hi : i < l.length),
      l.findIdx? (fun x => x = l[i]) = some i := by
  induction l with
  | nil => intro i hi; exact absurd hi (by simp)
  | cons a t ih =>
    intro i hi
    match i with
    | 0 => simp [List.findIdx?_cons]
    | Nat.succ j =>
      have hj : j < t.length := Nat.lt_of_succ_lt_succ hi
      have hane : a ≠ t[j] := by
        intro hcontra
        exact (List.nodup_cons.mp hnd).1 (hcontra ▸ List.getElem_mem hj)
      have hget : (a :: t)[j + 1] = t[j] := rfl
      rw [List.findIdx?_cons, hget, if_neg (by simp [hane]), List.findIdx?_succ,
        ih (List.nodup_cons.mp hnd).2 j hj]
      rfl

theorem findIdx_none_of_not_mem (l : List Nat) (idx : Nat) (h : idx ∉ l) :
    l.findIdx? (fun x => x = idx) = none := by
  rw [List.findIdx?_eq_none_iff]
  intro x hx
  simp only [decide_eq_false_iff_not]
  intro he
  exact h (he ▸ hx)

theorem cycle_forward_iterate (l : List Nat) (hnd : l.Nodup) :
    ∀ (k : Nat) (hk : k < l.length),
      (fun o => cycle_ws l true o)^[k + 1] none = some l[k] := by
  intro k
  induction k with
  | zero =>
    intro hk
    match l, hk with
    | a :: t, _ => simp [cycle_ws]
  | succ k ih =>
    intro hk
    have hk' : k < l.length := Nat.lt_of_succ_lt hk
    rw [Function.iterate_succ_apply', ih hk']
    have hf := findIdx_self_of_nodup l hnd k hk'
    have hlt : ¬ k + 1 ≥ l.length := Nat.not_le_of_lt hk
    simp [cycle_ws, hf, hlt, List.getElem?_eq_getElem hk]

theorem cycle_forward_wraps (l : List Nat) (hnd : l.Nodup) (hne : l ≠ []) :
    (fun o => cycle_ws l true o)^[l.length + 1] none = none := by
  have hlen : 0 < l.length := List.length_pos.mpr hne
  have hk : l.length - 1 < l.length := by omega
  have h1 : (fun o => cycle_ws l true o)^[l.length] none
      = some l[l.length - 1] := by
    have := cycle_forward_iterate l hnd (l.length - 1) hk
    rwa [Nat.sub_add_cancel hlen] at this
  rw [Function.iterate_succ_apply', h1]
  have hf := findIdx_self_of_nodup l hnd (l.length - 1) hk
  have hge : l.length - 1 + 1 ≥ l.length := by omega
  simp [cycle_ws, hf, hge]

/-- C5: over the enabled-index list the code builds, cycling forward
from unassigned assigns the first enabled monitor; after forward
cycles through all enabled monitors one more forward cycle returns to
unassigned; cycling backward from unassigned assigns the last enabled
monitor; an assigned monitor absent from the enabled list cycles to
unassigned; and `cycle_workspace_monitor` applies exactly this update
to the selected workspace entry. -/
theorem C5_workspace_cycling (monitors : List WlMonitor)
    (hne : enabled_indices monitors ≠ []) :
    (cycle_ws (enabled_indices monitors) true none
        = (enabled_indices monitors).head?
      ∧ ((enabled_indices monitors).head?).isSome = true)
  ∧ (fun o => cycle_ws (enabled_indices monitors) true o)^[(enabled_indices monitors).length + 1] none = none
  ∧ (cycle_ws (enabled_indices monitors) false none
        = (enabled_indices monitors).getLast?
      ∧ ((enabled_indices monitors).getLast?).isSome = true)
  ∧ (∀ idx, idx ∉ enabled_indices monitors →
      ∀ forward, cycle_ws (enabled_indices monitors) forward (some idx) = none)
  ∧ (∀ (a : App) (w : Nat) (ws : WorkspaceAssignment) (forward : Bool),
      a.workspace_selected = some w →
      a.workspace_assignments.get? w = some ws →
      a.monitors = monitors →
      (cycle_workspace_monitor a forward).workspace_assignments[w]?
        = some { ws with
            monitor_idx := cycle_ws (enabled_indices monitors) forward ws.monitor_idx }) := by
  refine ⟨⟨rfl, ?_⟩, ?_, ⟨rfl, ?_⟩, ?_, ?_⟩
  · rw [List.head?_isSome]
    exact hne
  · exact cycle_forward_wraps _ (enabled_indices_nodup monitors) hne
  · rw [List.getLast?_isSome]
    exact hne
  · intro idx hidx forward
    have hf := findIdx_none_of_not_mem _ _ hidx
    simp [cycle_ws, hf]
  · intro a w ws forward hsel hws hmons
    have hlt : w < a.workspace_assignments.length := (List.get?_eq_some.mp hws).1
    unfold cycle_workspace_monitor
    simp only [hsel, hws, hmons]
    rw [if_neg (by simp [List.isEmpty_iff, hne])]
    exact List.getElem?_set_self hlt

/-- C5 witness: with two enabled monitors the enabled-index list is
non-empty, three forward cycles from unassigned return to unassigned,
and one backward cycle from unassigned lands on the last enabled
monitor (index 1). -/
theorem C5_witness :
    enabled_indices [monA, monB] ≠ []
  ∧ (fun o => cycle_ws (enabled_indices [monA, monB]) true o)^[(enabled_indices [monA, monB]).length + 1] none = none
  ∧ cycle_ws (enabled_indices [monA, monB]) false none = some 1 := by
  have h : enabled_indices [monA, monB] ≠ [] := by decide
  have hthm := C5_workspace_cycling [monA, monB] h
  refine ⟨h, hthm.2.1, ?_⟩
  rw [hthm.2.2.1.1]
  decide

/-! ## Claim C6 — moves never insert negative pending coordinates -/

/-- Single-monitor app used by the movement witnesses: monitor D at
(100, 0), fresh move bookkeeping. -/
def app_single : App := { base_app with monitors := [monD] }

theorem move_candidate_nonneg (a : App) (d : PositionDirection) (now : Nat) :
    0 ≤ (move_candidate a d now).1 ∧ 0 ≤ (move_candidate a d now).2 :=
  ⟨le_max_right _ _, le_max_right _ _⟩

/-- C6: for every state, direction and time, any entry of the pending
position map after `move_monitor` is either an entry that was already
present or a pair with non-negative coordinates — the move inserts no
negative coordinate in either the collision-free or the edge-swap
branch, for either affected monitor. -/
theorem C6_no_negative_pending (a : App) (d : PositionDirection) (now : Nat)
    (k : Nat) (p : Int × Int)
    (h : (move_monitor a d now).pending_positions k = some p) :
    a.pending_positions k = some p ∨ (0 ≤ p.1 ∧ 0 ≤ p.2) := by
  unfold move_monitor at h
  cases hsel : a.monitors.get? a.selected_monitor with
  | none =>
    simp only [hsel] at h
    exact Or.inl h
  | some selm =>
    simp only [hsel] at h
    cases hen : selm.enabled with
    | false =>
      simp only [hen, Bool.not_false, if_true] at h
      exact Or.inl h
    | true =>
      simp only [hen, Bool.not_true, Bool.false_eq_true, if_false] at h
      cases hcol : move_collision a d now with
      | some jm =>
        simp only [hcol, pinsert] at h
        split_ifs at h with h1 h2
        · cases h
          exact Or.inr ⟨le_max_right _ _, le_max_right _ _⟩
        · cases h
          exact Or.inr ⟨le_max_right _ _, le_max_right _ _⟩
        · exact Or.inl h
      | none =>
        simp only [hcol, pinsert] at h
        split_ifs at h with h1
        · cases h
          exact Or.inr (move_candidate_nonneg a d now)
        · exact Or.inl h

/-- C6 witness: a concrete collision-free rightward move; the theorem
yields that the recorded entry is old or non-negative. -/
theorem C6_witness :
    app_single.pending_positions 0 = some (101, 0)
  ∨ (0 ≤ ((101 : Int), (0 : Int)).1 ∧ 0 ≤ ((101 : Int), (0 : Int)).2) :=
  C6_no_negative_pending app_single PositionDirection.Right 1000 0 (101, 0)
    (by decide)

/-! ## Claim C4 — step policy -/

theorem move_monitor_bookkeeping (a : App) (d : PositionDirection) (now : Nat)
    (selm : WlMonitor)
    (hsel : a.monitors.get? a.selected_monitor = some selm)
    (hen : selm.enabled = true) :
    (move_monitor a d now).move_repeat_count = move_repeat_after a d now
  ∧ (move_monitor a d now).last_move_direction = some d
  ∧ (move_monitor a d now).last_move_time = now := by
  unfold move_monitor
  simp only [hsel, hen, Bool.not_true, Bool.false_eq_true, if_false]
  cases hcol : move_collision a d now <;> simp [hcol]

/-- C4 counterexample: the claim requires a configuration choice with
a velocity-scaled policy whose step with no enabled neighbor ahead is
50.  On a fresh single-monitor state (monitor at (100, 0)), the code
moves right by 1, to (101, 0), never by 50 to (150, 0); no
configuration field selects any other step policy. -/
theorem C4_counterexample :
    (move_monitor app_single PositionDirection.Right 1000).pending_positions 0
      = some (101, 0)
  ∧ ¬ ((101 : Int), (0 : Int)) = ((150 : Int), (0 : Int)) :=
  ⟨by decide, by decide⟩

/-- C4 (amended): `move_monitor` implements exactly one step policy,
acceleration-on-repeat: the repeat counter increments when the same
direction recurs within 200 ms and resets to zero otherwise; the step
is 1 + 2 x repeat count; and in the collision-free case the pending
entry of the selected monitor is the displayed position shifted by
that signed step along the axis, clamped non-negative.  There is no
velocity-scaled policy and no configuration choice. -/
theorem C4_step_policy (a : App) (d : PositionDirection) (now : Nat)
    (selm : WlMonitor)
    (hsel : a.monitors.get? a.selected_monitor = some selm)
    (hen : selm.enabled = true) :
    ((now - a.last_move_time < REPEAT_WINDOW_MS
        ∧ same_direction a.last_move_direction d = true) →
      (move_monitor a d now).move_repeat_count = a.move_repeat_count + 1)
  ∧ (¬ (now - a.last_move_time < REPEAT_WINDOW_MS
        ∧ same_direction a.last_move_direction d = true) →
      (move_monitor a d now).move_repeat_count = 0)
  ∧ (move_monitor a d now).last_move_direction = some d
  ∧ (move_monitor a d now).last_move_time = now
  ∧ move_step a d now = 1 + 2 * ((move_monitor a d now).move_repeat_count : Int)
  ∧ (move_collision a d now = none →
      (move_monitor a d now).pending_positions a.selected_monitor
        = some (move_candidate a d now))
  ∧ (d = PositionDirection.Left → move_candidate a d now
      = (max ((display_position a a.selected_monitor).1 - move_step a d now) 0,
         max (display_position a a.selected_monitor).2 0))
  ∧ (d = PositionDirection.Right → move_candidate a d now
      = (max ((display_position a a.selected_monitor).1 + move_step a d now) 0,
         max (display_position a a.selected_monitor).2 0))
  ∧ (d = PositionDirection.Up → move_candidate a d now
      = (max (display_position a a.selected_monitor).1 0,
         max ((display_position a a.selected_monitor).2 - move_step a d now) 0))
  ∧ (d = PositionDirection.Down → move_candidate a d now
      = (max (display_position a a.selected_monitor).1 0,
         max ((display_position a a.selected_monitor).2 + move_step a d now) 0)) := by
  obtain ⟨hrc, hdir, htime⟩ := move_monitor_bookkeeping a d now selm hsel hen
  refine ⟨?_, ?_, hdir, htime, ?_, ?_, ?_, ?_, ?_, ?_⟩
  · intro hc
    rw [hrc]
    unfold move_repeat_after
    rw [if_pos]
    simp only [Bool.and_eq_true, decide_eq_true_eq]
    exact ⟨hc.1, hc.2⟩
  · intro hc
    rw [hrc]
    unfold move_repeat_after
    rw [if_neg]
    simp only [Bool.and_eq_true, decide_eq_true_eq]
    exact fun hcon => hc ⟨hcon.1, hcon.2⟩
  · rw [hrc]
    unfold move_step
    ring
  · intro hnone
    unfold move_monitor
    simp only [hsel, hen, Bool.not_true, Bool.false_eq_true, if_false, hnone]
    simp [pinsert]
  · intro hd
    subst hd
    rfl
  · intro hd
    subst hd
    rfl
  · intro hd
    subst hd
    rfl
  · intro hd
    subst hd
    rfl

/-- C4 witness: a fresh rightward move on the single-monitor state
resets the repeat counter and records the direction. -/
theorem C4_witness :
    (move_monitor app_single PositionDirection.Right 1000).move_repeat_count = 0
  ∧ (move_monitor app_single PositionDirection.Right 1000).last_move_direction
      = some PositionDirection.Right := by
  have h := C4_step_policy app_single PositionDirection.Right 1000 monD
    (by decide) (by decide)
  exact ⟨h.2.1 (by decide), h.2.2.1⟩

/-! ## Claim C3 — collision resolution by edge swap -/

/-- Two-monitor app used by the edge-swap theorems: selected monitor C
(100x100) at (50, 0) and monitor B (50x100) at the origin. -/
def app_two : App := { base_app with monitors := [monC, monB] }

theorem move_collision_ne_selected (a : App) (d : PositionDirection) (now : Nat)
    (j : Nat) (om : WlMonitor)
    (hcol : move_collision a d now = some (j, om)) :
    j ≠ a.selected_monitor := by
  unfold move_collision at hcol
  cases hsel : a.monitors.get? a.selected_monitor with
  | none =>
    simp only [hsel] at hcol
    exact Option.noConfusion hcol
  | some selm =>
    simp only [hsel] at hcol
    have hp := List.find?_some hcol
    intro heq
    simp [heq] at hp

/-- C3 counterexample: moving C (at (50, 0)) left by one collides with
B; the claim says the obstruction is displaced to the mover's starting
position (50, 0), but the code records (100, 0) for it — flush on the
far side of the mover instead. -/
theorem C3_counterexample :
    (move_monitor app_two PositionDirection.Left 1000).pending_positions 1
      = some (100, 0)
  ∧ display_position app_two 0 = (50, 0)
  ∧ ¬ ((100 : Int), (0 : Int)) = ((50 : Int), (0 : Int)) :=
  ⟨by decide, by decide, by decide⟩

/-- C3 (amended): when the clamped candidate collides, the code
resolves exactly one collision, against the first colliding enabled
monitor.  For a leftward or upward move the mover takes the
obstruction's displayed position and the obstruction is placed flush
past the mover's far edge (mover width or height beyond); for a
rightward or downward move the obstruction is displaced to the mover's
starting position and the mover is placed flush past the obstruction's
extent measured from that start.  Both positions become pending and no
other pending entry changes.  (Stated under non-negative displayed
positions and dimensions, where the final clamps are inert.) -/
theorem C3_edge_swap (a : App) (d : PositionDirection) (now : Nat)
    (j : Nat) (om selm : WlMonitor)
    (hsel : a.monitors.get? a.selected_monitor = some selm)
    (hen : selm.enabled = true)
    (hcol : move_collision a d now = some (j, om))
    (hc1 : 0 ≤ (display_position a a.selected_monitor).1)
    (hc2 : 0 ≤ (display_position a a.selected_monitor).2)
    (ho1 : 0 ≤ (display_position a j).1)
    (ho2 : 0 ≤ (display_position a j).2)
    (hs1 : 0 ≤ (effective_dimensions selm).1)
    (hs2 : 0 ≤ (effective_dimensions selm).2)
    (hw1 : 0 ≤ (effective_dimensions om).1)
    (hw2 : 0 ≤ (effective_dimensions om).2) :
    (d = PositionDirection.Left →
        (move_monitor a d now).pending_positions a.selected_monitor
          = some (display_position a j)
      ∧ (move_monitor a d now).pending_positions j
          = some ((display_position a j).1 + (effective_dimensions selm).1,
              (display_position a j).2))
  ∧ (d = PositionDirection.Right →
        (move_monitor a d now).pending_positions a.selected_monitor
          = some ((display_position a a.selected_monitor).1
                + (effective_dimensions om).1,
              (display_position a a.selected_monitor).2)
      ∧ (move_monitor a d now).pending_positions j
          = some (display_position a a.selected_monitor))
  ∧ (d = PositionDirection.Up →
        (move_monitor a d now).pending_positions a.selected_monitor
          = some (display_position a j)
      ∧ (move_monitor a d now).pending_positions j
          = some ((display_position a j).1,
              (display_position a j).2 + (effective_dimensions selm).2))
  ∧ (d = PositionDirection.Down →
        (move_monitor a d now).pending_positions a.selected_monitor
          = some ((display_position a a.selected_monitor).1,
              (display_position a a.selected_monitor).2
                + (effective_dimensions om).2)
      ∧ (move_monitor a d now).pending_positions j
          = some (display_position a a.selected_monitor))
  ∧ (∀ k, k ≠ a.selected_monitor → k ≠ j →
      (move_monitor a d now).pending_positions k = a.pending_positions k) := by
  have hj := move_collision_ne_selected a d now j om hcol
  have hredu : ∀ k, (move_monitor a d now).pending_positions k
      = pinsert (pinsert a.pending_positions a.selected_monitor
          (max (match d with
            | PositionDirection.Left => ((display_position a j).1, (display_position a j).2)
            | PositionDirection.Right => ((display_position a a.selected_monitor).1 + (effective_dimensions om).1, (display_position a a.selected_monitor).2)
            | PositionDirection.Up => ((display_position a j).1, (display_position a j).2)
            | PositionDirection.Down => ((display_position a a.selected_monitor).1, (display_position a a.selected_monitor).2 + (effective_dimensions om).2)).1 0,
           max (match d with
            | PositionDirection.Left => ((display_position a j).1, (display_position a j).2)
            | PositionDirection.Right => ((display_position a a.selected_monitor).1 + (effective_dimensions om).1, (display_position a a.selected_monitor).2)
            | PositionDirection.Up => ((display_position a j).1, (display_position a j).2)
            | PositionDirection.Down => ((display_position a a.selected_monitor).1, (display_position a a.selected_monitor).2 + (effective_dimensions om).2)).2 0))
          j
          (max (match d with
            | PositionDirection.Left => ((display_position a j).1 + (effective_dimensions selm).1, (display_position a j).2)
            | PositionDirection.Right => ((display_position a a.selected_monitor).1, (display_position a a.selected_monitor).2)
            | PositionDirection.Up => ((display_position a j).1, (display_position a j).2 + (effective_dimensions selm).2)
            | PositionDirection.Down => ((display_position a a.selected_monitor).1, (display_position a a.selected_monitor).2)).1 0,
           max (match d with
            | PositionDirection.Left => ((display_position a j).1 + (effective_dimensions selm).1, (display_position a j).2)
            | PositionDirection.Right => ((display_position a a.selected_monitor).1, (display_position a a.selected_monitor).2)
            | PositionDirection.Up => ((display_position a j).1, (display_position a j).2 + (effective_dimensions selm).2)
            | PositionDirection.Down => ((display_position a a.selected_monitor).1, (display_position a a.selected_monitor).2)).2 0) k := by
    intro k
    unfold move_monitor
    simp only [hsel, hen, Bool.not_true, Bool.false_eq_true, if_false, hcol]
    cases d <;> rfl
  refine ⟨?_, ?_, ?_, ?_, ?_⟩
  · intro hd
    subst hd
    constructor
    · rw [hredu]
      simp only [pinsert, if_neg (Ne.symm hj), if_pos rfl]
      simp [max_eq_left ho1, max_eq_left ho2]
    · rw [hredu]
      simp only [pinsert, if_pos rfl]
      simp [max_eq_left (add_nonneg ho1 hs1), max_eq_left ho2]
  · intro hd
    subst hd
    constructor
    · rw [hredu]
      simp only [pinsert, if_neg (Ne.symm hj), if_pos rfl]
      simp [max_eq_left (add_nonneg hc1 hw1), max_eq_left hc2]
    · rw [hredu]
      simp only [pinsert, if_pos rfl]
      simp [max_eq_left hc1, max_eq_left hc2]
  · intro hd
    subst hd
    constructor
    · rw [hredu]
      simp only [pinsert, if_neg (Ne.symm hj), if_pos rfl]
      simp [max_eq_left ho1, max_eq_left ho2]
    · rw [hredu]
      simp only [pinsert, if_pos rfl]
      simp [max_eq_left ho1, max_eq_left (add_nonneg ho2 hs2)]
  · intro hd
    subst hd
    constructor
    · rw [hredu]
      simp only [pinsert, if_neg (Ne.symm hj), if_pos rfl]
      simp [max_eq_left hc1, max_eq_left (add_nonneg hc2 hw2)]
    · rw [hredu]
      simp only [pinsert, if_pos rfl]
      simp [max_eq_left hc1, max_eq_left hc2]
  · intro k hk1 hk2
    rw [hredu]
    simp only [pinsert, if_neg hk2, if_neg hk1]

/-- C3 witness: in the concrete two-monitor state, the leftward move
collides with B (index 1); the mover ends at B's position (0, 0) and B
is displaced flush right of it, to (100, 0); both pending. -/
theorem C3_witness :
    (move_monitor app_two PositionDirection.Left 1000).pending_positions 0
      = some (0, 0)
  ∧ (move_monitor app_two PositionDirection.Left 1000).pending_positions 1
      = some (100, 0) := by
  have h := (C3_edge_swap app_two PositionDirection.Left 1000 1 monB monC
    (by decide) (by decide) (by decide) (by decide) (by decide) (by decide)
    (by decide) (by decide) (by decide) (by decide) (by decide)).1 rfl
  refine ⟨?_, ?_⟩
  · show (move_monitor app_two PositionDirection.Left 1000).pending_positions
      app_two.selected_monitor = some (0, 0)
    rw [h.1]
    decide
  · rw [h.2]
    decide

/-! ## Claim C10 — last-enabled-monitor toggle confirmation -/

/-- C10: with the warning flag clear, selecting the only enabled
monitor and toggling emits no action, arms the warning, and leaves the
monitor set and selection unchanged; toggling again (flag now set)
emits the toggle.  With more than one enabled monitor, or a disabled
selected monitor, the toggle is emitted immediately.  With the flag
set, a toggle is always emitted and the flag cleared.  Hence a disable
of the last enabled monitor is never emitted without the confirmation
step. -/
theorem C10_toggle_confirmation (a : App) (sp : Option (Int × Int))
    (m : WlMonitor)
    (hm : a.monitors.get? a.selected_monitor = some m) :
    (a.pending_toggle_warning = false → m.enabled = true →
      enabled_count a = 1 →
        (toggle_monitor a sp).2 = none
      ∧ (toggle_monitor a sp).1.pending_toggle_warning = true
      ∧ (toggle_monitor a sp).1.monitors = a.monitors
      ∧ (toggle_monitor a sp).1.selected_monitor = a.selected_monitor
      ∧ (toggle_monitor (toggle_monitor a sp).1 sp).2.isSome = true)
  ∧ (a.pending_toggle_warning = false →
      (m.enabled = false ∨ enabled_count a ≠ 1) →
        (toggle_monitor a sp).2.isSome = true)
  ∧ (a.pending_toggle_warning = true →
        (toggle_monitor a sp).2.isSome = true
      ∧ (toggle_monitor a sp).1.pending_toggle_warning = false) := by
  refine ⟨?_, ?_, ?_⟩
  · intro hwf hen hcnt
    have h1 : toggle_monitor a sp
        = ({ a with pending_toggle_warning := true }, none) := by
      unfold toggle_monitor
      rw [if_neg (by simp [hwf])]
      simp only [hm]
      rw [if_pos (by simp [hen, hcnt])]
    rw [h1]
    refine ⟨rfl, rfl, rfl, rfl, ?_⟩
    unfold toggle_monitor
    rw [if_pos rfl]
    simp only [hm]
    rfl
  · intro hwf hcond
    have hnc : ¬ (m.enabled && decide (enabled_count a = 1)) = true := by
      rcases hcond with h | h
      · simp [h]
      · simp [h]
    unfold toggle_monitor
    rw [if_neg (by simp [hwf])]
    simp only [hm]
    rw [if_neg hnc]
    rfl
  · intro hwt
    unfold toggle_monitor
    rw [if_pos (by simp [hwt])]
    simp only [hm]
    constructor
    · rfl
    · rfl

/-- C10 witness: in the concrete single-enabled-monitor state the
first toggle emits nothing and the second emits the toggle. -/
theorem C10_witness :
    (toggle_monitor { base_app with monitors := [monA] } none).2 = none
  ∧ (toggle_monitor
      (toggle_monitor { base_app with monitors := [monA] } none).1 none).2.isSome
      = true := by
  have h := (C10_toggle_confirmation { base_app with monitors := [monA] }
    none monA (by decide)).1 (by decide) (by decide) (by decide)
  exact ⟨h.1, h.2.2.2.2⟩

end Xwlm
